import Mathlib

/-!
Shallow embedding of the bowling-game scorer
(`src/3 - Assignment/220327 - Make Interpreter Rust, Week 1/prob3/src/lib.rs`)
and of the RPN calculator
(`src/3 - Assignment/220327 - Make Interpreter Rust, Week 1/prob2/src/lib.rs`).

Machine integers of the source (`u8`, `u16`) are modelled as `Nat`; every
subtraction in the source is guarded so that it never underflows, and the one
guarded subtraction (`remove_pins`) is performed here with truncated `Nat`
subtraction, which agrees with `u16` subtraction exactly when the guard holds.
The calculator's `i32` values are modelled as `Int` with explicit
two's-complement wrapping, and the panicking cases of Rust `i32` division
(zero divisor, `i32::MIN / -1`) are made explicit in the result type.
-/

/-- Mirror of the Rust `enum Error` of the bowling scorer. -/
inductive Error where
  | NotEnoughPinsLeft
  | GameComplete
deriving DecidableEq, Repr

/-- Mirror of the Rust `enum ThrowResult`. -/
inductive ThrowResult where
  | Normal (n : Nat)
  | Spare (n : Nat)
  | Bonus (n : Nat)
  | Strike
deriving DecidableEq, Repr

/-- Mirror of `ThrowResult::to_score`. -/
def ThrowResult.to_score : ThrowResult → Nat
  | .Normal n => n
  | .Spare n => n
  | .Bonus n => n
  | .Strike => 10

/-- Mirror of the Rust `struct BowlingGame`. -/
structure BowlingGame where
  frame : Nat
  is_bonus_throw : Bool
  throws_in_frame : Nat
  pins_left : Nat
  result : List ThrowResult
deriving DecidableEq, Repr

set_option maxRecDepth 4000

namespace BowlingGame

/-- Mirror of `BowlingGame::new`. -/
def new : BowlingGame :=
  { frame := 1, is_bonus_throw := false, throws_in_frame := 0, pins_left := 10,
    result := [.Normal 0, .Normal 0] }

/-- Mirror of `increase_throws_in_frame`. -/
def increase_throws_in_frame (s : BowlingGame) : BowlingGame :=
  { s with throws_in_frame := s.throws_in_frame + 1 }

/-- Mirror of `remove_pins` (`self.pins_left -= pins`; only reached under the
`has_enough_pins` guard, where `Nat` subtraction agrees with `u16`). -/
def remove_pins (s : BowlingGame) (pins : Nat) : BowlingGame :=
  { s with pins_left := s.pins_left - pins }

/-- Mirror of `add_throw_result`. -/
def add_throw_result (s : BowlingGame) (t : ThrowResult) : BowlingGame :=
  { s with result := s.result ++ [t] }

/-- Mirror of `get_throw_result_with_pins` (called on the state whose
`pins_left` has already been decremented, as in `roll`). -/
def get_throw_result_with_pins (s : BowlingGame) (pins : Nat) : ThrowResult :=
  if s.is_bonus_throw then .Bonus pins
  else if pins == 10 then .Strike
  else if s.pins_left == 0 then .Spare pins
  else .Normal pins

/-- Mirror of `has_enough_pins` (`self.pins_left >= pins`). -/
def has_enough_pins (s : BowlingGame) (pins : Nat) : Bool :=
  decide (pins ≤ s.pins_left)

/-- Mirror of `set_bonus_throw`. -/
def set_bonus_throw (s : BowlingGame) : BowlingGame :=
  { s with pins_left := 10, is_bonus_throw := true }

/-- Mirror of `should_proceed_to_bonus_throw`
(`self.pins_left == 0 && self.frame == 10`). -/
def should_proceed_to_bonus_throw (s : BowlingGame) : Bool :=
  s.pins_left == 0 && s.frame == 10

/-- Mirror of `should_proceed_to_next_frame`. -/
def should_proceed_to_next_frame (s : BowlingGame) : Bool :=
  if s.frame == 10 && s.is_bonus_throw then
    decide (3 ≤ s.throws_in_frame)
  else
    s.pins_left == 0 || decide (2 ≤ s.throws_in_frame)

/-- Mirror of `is_game_complete` (`self.frame > 10`). -/
def is_game_complete (s : BowlingGame) : Bool :=
  decide (10 < s.frame)

/-- Mirror of `set_new_frame`. -/
def set_new_frame (s : BowlingGame) : BowlingGame :=
  { s with frame := s.frame + 1, throws_in_frame := 0, pins_left := 10 }

/-- State after the unconditional mutation steps of a successful `roll`:
`remove_pins`, then `get_throw_result_with_pins` + `add_throw_result`,
then `increase_throws_in_frame`, in the source's order. -/
def afterThrow (s : BowlingGame) (pins : Nat) : BowlingGame :=
  increase_throws_in_frame
    (add_throw_result (remove_pins s pins)
      (get_throw_result_with_pins (remove_pins s pins) pins))

/-- The conditional `set_bonus_throw` step of `roll`. -/
def afterBonusCheck (s : BowlingGame) : BowlingGame :=
  if should_proceed_to_bonus_throw s then set_bonus_throw s else s

/-- The conditional `set_new_frame` step of `roll`. -/
def afterFrameCheck (s : BowlingGame) : BowlingGame :=
  if should_proceed_to_next_frame s then set_new_frame s else s

/-- Mirror of `BowlingGame::roll`.  The Rust method mutates `self` in place
and returns `Result<(), Error>`; here it returns the result together with the
state after the call (on the early error returns, the unchanged state). -/
def roll (s : BowlingGame) (pins : Nat) : Except Error Unit × BowlingGame :=
  if is_game_complete s then (.error .GameComplete, s)
  else if !has_enough_pins s pins then (.error .NotEnoughPinsLeft, s)
  else (.ok (), afterFrameCheck (afterBonusCheck (afterThrow s pins)))

/-- Mirror of `calculate_completed_strike_or_zero`, on a width-3 window
(the Rust slice pattern `[ThrowResult::Strike, a, b]`). -/
def calculate_completed_strike_or_zero (x y z : ThrowResult) : Nat :=
  match x with
  | .Strike => 10 + y.to_score + z.to_score
  | _ => 0

/-- Mirror of `calculate_completed_spare_or_zero`
(the Rust slice pattern `[_, ThrowResult::Spare(spare), a]`). -/
def calculate_completed_spare_or_zero (x y z : ThrowResult) : Nat :=
  match y with
  | .Spare n => n + z.to_score
  | _ => 0

/-- Mirror of `calculate_normal_hits_or_zero`
(the Rust slice pattern `[_, _, ThrowResult::Normal(normal)]`). -/
def calculate_normal_hits_or_zero (x y z : ThrowResult) : Nat :=
  match z with
  | .Normal n => n
  | _ => 0

/-- Mirror of `calculate_score_of_throw`: the sum of the three rule
contributions on one window. -/
def calculate_score_of_throw (x y z : ThrowResult) : Nat :=
  calculate_completed_strike_or_zero x y z
    + calculate_completed_spare_or_zero x y z
    + calculate_normal_hits_or_zero x y z

/-- Mirror of `calculate_score`: `self.result.windows(3).map(..).sum()`,
written as the direct recursion over the sliding width-3 windows. -/
def calculate_score : List ThrowResult → Nat
  | x :: y :: z :: r => calculate_score_of_throw x y z + calculate_score (y :: z :: r)
  | _ => 0

/-- Mirror of `BowlingGame::score`. -/
def score (s : BowlingGame) : Option Nat :=
  if is_game_complete s then some (calculate_score s.result) else none

end BowlingGame

/-- Apply a sequence of rolls, ignoring the per-roll results (as the source's
tests do with `let _ = game.roll(..)`). -/
def applyRolls (s : BowlingGame) : List Nat → BowlingGame
  | [] => s
  | p :: r => applyRolls (BowlingGame.roll s p).2 r

/-- Apply a sequence of rolls, failing on the first roll that errors. -/
def rollSeq (s : BowlingGame) : List Nat → Except Error BowlingGame
  | [] => .ok s
  | p :: r =>
    match BowlingGame.roll s p with
    | (.ok _, s1) => rollSeq s1 r
    | (.error e, _) => .error e

example : BowlingGame.score (applyRolls BowlingGame.new (List.replicate 20 0)) = some 0 := by
  rfl

example : BowlingGame.score (applyRolls BowlingGame.new (List.replicate 20 0 ++ [0])) = some 0 := by
  rfl

example : (BowlingGame.roll BowlingGame.new 11).1 = .error .NotEnoughPinsLeft := by
  rfl

example :
    BowlingGame.score (applyRolls BowlingGame.new ([6, 4, 3] ++ List.replicate 17 0))
      = some 16 := by
  rfl

example :
    BowlingGame.score (applyRolls BowlingGame.new ([10, 5, 3] ++ List.replicate 16 0))
      = some 26 := by
  rfl

example :
    BowlingGame.score (applyRolls BowlingGame.new (List.replicate 18 0 ++ [5, 5, 7]))
      = some 17 := by
  rfl

example :
    (rollSeq BowlingGame.new (List.replicate 12 10)).map BowlingGame.score
      = .ok (some 300) := by
  rfl

namespace BowlingGame

@[simp] lemma afterThrow_frame (s : BowlingGame) (p : Nat) : (afterThrow s p).frame = s.frame := rfl

@[simp] lemma afterThrow_bonus (s : BowlingGame) (p : Nat) :
    (afterThrow s p).is_bonus_throw = s.is_bonus_throw := rfl

@[simp] lemma afterThrow_throws (s : BowlingGame) (p : Nat) :
    (afterThrow s p).throws_in_frame = s.throws_in_frame + 1 := rfl

@[simp] lemma afterThrow_pins (s : BowlingGame) (p : Nat) :
    (afterThrow s p).pins_left = s.pins_left - p := rfl

@[simp] lemma afterThrow_result (s : BowlingGame) (p : Nat) :
    (afterThrow s p).result
      = s.result ++ [get_throw_result_with_pins (remove_pins s p) p] := rfl

end BowlingGame

open BowlingGame

/-- C6: if `roll` returns an error (either `NotEnoughPinsLeft` or
`GameComplete`), the whole state — frame, bonus flag, throw counter, pins
left, and throw history — is exactly the input state. -/
theorem roll_error_no_mutation (s : BowlingGame) (p : Nat) (e : Error)
    (h : (roll s p).1 = .error e) : (roll s p).2 = s := by
  unfold roll at h ⊢
  split_ifs at h ⊢ <;> simp_all

/-- Witness for `roll_error_no_mutation`: rolling 11 pins on a fresh game
errors and leaves the state unchanged. -/
theorem roll_error_no_mutation_witness :
    (roll BowlingGame.new 11).2 = BowlingGame.new :=
  roll_error_no_mutation BowlingGame.new 11 .NotEnoughPinsLeft rfl

/-- C9: every `roll` call — successful or rejected — never decreases the
frame index and only ever appends to the throw history; and a successful
`roll` was guarded by `has_enough_pins`, so the pin subtraction never
underflows and pins-left never becomes negative. -/
theorem roll_success_invariants (s : BowlingGame) (p : Nat) :
    s.frame ≤ (roll s p).2.frame
    ∧ (∃ t, (roll s p).2.result = s.result ++ t)
    ∧ ((roll s p).1 = .ok () → p ≤ s.pins_left) := by
  by_cases h1 : is_game_complete s = true
  · have hr : roll s p = (.error .GameComplete, s) := by
      simp [roll, h1]
    rw [hr]
    exact ⟨le_rfl, ⟨[], by simp⟩, by simp⟩
  · by_cases h2 : has_enough_pins s p = true
    · have hr : roll s p
          = (.ok (), afterFrameCheck (afterBonusCheck (afterThrow s p))) := by
        unfold roll
        rw [if_neg h1, if_neg (by simp [h2])]
      rw [hr]
      refine ⟨?_, ?_, fun _ => by simpa [has_enough_pins] using h2⟩
      · unfold afterFrameCheck afterBonusCheck
        split <;> split <;>
          simp [set_new_frame, set_bonus_throw, Nat.le_succ]
      · unfold afterFrameCheck afterBonusCheck
        split <;> split <;>
          exact ⟨[(remove_pins s p).get_throw_result_with_pins p],
            by simp [set_new_frame, set_bonus_throw]⟩
    · have hr : roll s p = (.error .NotEnoughPinsLeft, s) := by
        simp [roll, h1, h2]
      rw [hr]
      exact ⟨le_rfl, ⟨[], by simp⟩, by simp⟩

/-- Witness for `roll_success_invariants` at the fresh game with a 4-pin
roll. -/
theorem roll_success_invariants_witness :
    BowlingGame.new.frame ≤ (roll BowlingGame.new 4).2.frame
    ∧ (∃ t, (roll BowlingGame.new 4).2.result = BowlingGame.new.result ++ t)
    ∧ 4 ≤ BowlingGame.new.pins_left := by
  have h := roll_success_invariants BowlingGame.new 4
  exact ⟨h.1, h.2.1, h.2.2 rfl⟩

/-- C7: after any sequence of rolls (including the empty one), `score` is
`none` exactly while the frame index has not reached 11, and yields the
computed total exactly once it has. -/
theorem score_none_until_complete (l : List Nat) :
    (score (applyRolls BowlingGame.new l) = none
        ↔ (applyRolls BowlingGame.new l).frame < 11) ∧
      ((∃ n, score (applyRolls BowlingGame.new l) = some n)
        ↔ 11 ≤ (applyRolls BowlingGame.new l).frame) := by
  generalize applyRolls BowlingGame.new l = s
  unfold score is_game_complete
  by_cases h : 10 < s.frame
  · simp [h]
    omega
  · simp [h]
    omega

/-- C8: twelve consecutive ten-pin rolls all succeed from a fresh game and
the final score is 300. -/
theorem perfect_game_scores_300 :
    (rollSeq BowlingGame.new (List.replicate 12 10)).map score
      = .ok (some 300) := by
  rfl

/-- C1 counterexample: in frame 1, a roll of 0 followed by a roll of 10 is
classified `Strike` (entry 3 of the history, after the two synthetic
leading zeros and the first throw), not `Spare`, and is scored under the
strike rule.  With subsequent rolls `3, 4` and 16 trailing zeros the code
totals 24 (strike bonus counts the next TWO rolls), whereas scoring that
frame as a spare — as the claim requires — would total 20, as the genuinely
equivalent spare game `1, 9, 3, 4, 0…` shows. -/
theorem zero_ten_is_strike_not_spare_cex :
    (applyRolls BowlingGame.new ([0, 10, 3, 4] ++ List.replicate 16 0)).result.get? 3
        = some .Strike ∧
      score (applyRolls BowlingGame.new ([0, 10, 3, 4] ++ List.replicate 16 0))
        = some 24 ∧
      score (applyRolls BowlingGame.new ([1, 9, 3, 4] ++ List.replicate 16 0))
        = some 20 := by
  refine ⟨rfl, rfl, rfl⟩

/-- C2 counterexample: the completed game `10, 5, 3, 0…` has the window
`(Strike, Normal 5, Normal 3)` at positions 2..4 of its history, and on
that window BOTH the strike rule and the normal rule contribute (18 and 3),
refuting mutual exclusivity of the three rules on windows occurring in a
completed game's history. -/
theorem window_two_rules_fire_cex :
    10 < (applyRolls BowlingGame.new ([10, 5, 3] ++ List.replicate 16 0)).frame ∧
      (applyRolls BowlingGame.new ([10, 5, 3] ++ List.replicate 16 0)).result.get? 2
        = some .Strike ∧
      (applyRolls BowlingGame.new ([10, 5, 3] ++ List.replicate 16 0)).result.get? 3
        = some (.Normal 5) ∧
      (applyRolls BowlingGame.new ([10, 5, 3] ++ List.replicate 16 0)).result.get? 4
        = some (.Normal 3) ∧
      calculate_completed_strike_or_zero .Strike (.Normal 5) (.Normal 3) = 18 ∧
      calculate_normal_hits_or_zero .Strike (.Normal 5) (.Normal 3) = 3 := by
  refine ⟨by decide, rfl, rfl, rfl, rfl, rfl⟩

/-- C3 counterexample: after eighteen zeros, a tenth-frame strike and a
first bonus throw of 10, the scorer is already in the bonus phase; the
second 10-pin throw nevertheless re-triggers `set_bonus_throw`, leaving
`pins_left = 10` (the claim says a throw taken in the bonus phase never
resets pins-left to 10; under the claimed behaviour pins-left would be 0
and the subsequent 6-pin roll — which the source's own test
`the_two_balls_after_a_final_strike_can_be_a_strike_and_non_strike`
requires to succeed — would be rejected). -/
theorem bonus_reentry_resets_pins_cex :
    (applyRolls BowlingGame.new (List.replicate 18 0 ++ [10])).is_bonus_throw
        = true ∧
      (roll (applyRolls BowlingGame.new (List.replicate 18 0 ++ [10])) 10).1
        = .ok () ∧
      (roll (applyRolls BowlingGame.new (List.replicate 18 0 ++ [10])) 10).2.pins_left
        = 10 ∧
      (roll (applyRolls BowlingGame.new (List.replicate 18 0 ++ [10])) 10).2.is_bonus_throw
        = true ∧
      (roll (roll (applyRolls BowlingGame.new (List.replicate 18 0 ++ [10])) 10).2 6).1
        = .ok () := by
  refine ⟨rfl, rfl, rfl, rfl, rfl⟩

namespace BowlingGame

lemma calculate_score_cons3 (x y z : ThrowResult) (r : List ThrowResult) :
    calculate_score (x :: y :: z :: r)
      = calculate_score_of_throw x y z + calculate_score (y :: z :: r) := rfl

/-- A `Spare b` and a `Normal b` head contribute identically once they sit in
the first slot of the remaining windows: no rule inspects the first slot
except the strike rule, which requires `Strike`. -/
lemma calculate_score_spare_head (b : Nat) (t : ThrowResult)
    (post : List ThrowResult) :
    calculate_score (.Spare b :: t :: post)
      = calculate_score (.Normal b :: t :: post) := by
  cases post with
  | nil => rfl
  | cons u r =>
    simp [calculate_score_cons3, calculate_score_of_throw,
      calculate_completed_strike_or_zero, calculate_completed_spare_or_zero,
      calculate_normal_hits_or_zero]

lemma window_normal_vs_spare_last (c : ThrowResult) (a b : Nat) :
    calculate_score_of_throw c (.Normal a) (.Normal b)
      = calculate_score_of_throw c (.Normal a) (.Spare b) + b := by
  cases c <;>
    simp [calculate_score_of_throw, calculate_completed_strike_or_zero,
      calculate_completed_spare_or_zero, calculate_normal_hits_or_zero,
      ThrowResult.to_score] <;> omega

lemma window_spare_middle (a b : Nat) (t : ThrowResult) :
    calculate_score_of_throw (.Normal a) (.Spare b) t
      = calculate_score_of_throw (.Normal a) (.Normal b) t + b + t.to_score := by
  simp [calculate_score_of_throw, calculate_completed_strike_or_zero,
    calculate_completed_spare_or_zero, calculate_normal_hits_or_zero]
  omega

/-- Replacing the `Spare b` entry of a history by a plain `Normal b` lowers
the total by exactly the face value of the very next throw: a spare scores
its frame's 10 pins (via the normal rule on the first throw plus the spare
rule's own pins) plus the next throw's pins once more.  The explicit leading
`c` records that the spare is never the first history entry (the history
starts with two synthetic `Normal 0` entries). -/
lemma spare_identity (pre : List ThrowResult) :
    ∀ (c : ThrowResult) (a b : Nat) (t : ThrowResult) (post : List ThrowResult),
      calculate_score (c :: pre ++ [.Normal a, .Spare b, t] ++ post)
        = calculate_score (c :: pre ++ [.Normal a, .Normal b, t] ++ post)
          + t.to_score := by
  induction pre with
  | nil =>
    intro c a b t post
    simp only [List.nil_append, List.cons_append,
      calculate_score_cons3, calculate_score_spare_head]
    have h1 := window_normal_vs_spare_last c a b
    have h2 := window_spare_middle a b t
    omega
  | cons d pre ih =>
    intro c a b t post
    cases pre with
    | nil =>
      have h := ih d a b t post
      simp only [List.nil_append, List.cons_append] at h ⊢
      rw [calculate_score_cons3 c d (.Normal a),
        calculate_score_cons3 c d (.Normal a), h]
      omega
    | cons e pre2 =>
      have h := ih d a b t post
      simp only [List.nil_append, List.cons_append] at h ⊢
      rw [calculate_score_cons3 c d e, calculate_score_cons3 c d e, h]
      omega

end BowlingGame

/-- C1 (amended): a throw is recorded as a spare exactly when the scorer is
not in the bonus phase, the throw is not itself a 10-pin roll, and it clears
the pins remaining in the frame (so a first roll of 0 followed by a roll of
10 is classified `Strike`, not `Spare`, and is scored under the strike
rule); and every frame recorded as `Normal a` then `Spare b` contributes
`a + b` plus the very next throw's pins once more to the final total — for
a real spare `a + b = 10`, i.e. 10 plus the next roll counted again. -/
theorem spare_classification_and_scoring :
    (∀ (s : BowlingGame) (p : Nat),
        get_throw_result_with_pins s p = .Spare p
          ↔ s.is_bonus_throw = false ∧ p ≠ 10 ∧ s.pins_left = 0)
    ∧ ∀ (c : ThrowResult) (pre : List ThrowResult) (a b : Nat)
        (t : ThrowResult) (post : List ThrowResult),
        calculate_score (c :: pre ++ [.Normal a, .Spare b, t] ++ post)
          = calculate_score (c :: pre ++ [.Normal a, .Normal b, t] ++ post)
            + t.to_score := by
  constructor
  · intro s p
    unfold get_throw_result_with_pins
    constructor
    · intro h
      split_ifs at h <;> simp_all
    · rintro ⟨h1, h2, h3⟩
      simp [h1, h2, h3]
  · intro c pre a b t post
    exact BowlingGame.spare_identity pre c a b t post

namespace BowlingGame

lemma roll_ok (s : BowlingGame) (p : Nat) (hc : is_game_complete s = false)
    (hp : has_enough_pins s p = true) :
    roll s p = (.ok (), afterFrameCheck (afterBonusCheck (afterThrow s p))) := by
  unfold roll
  rw [hc, hp]
  simp

lemma afterBonusCheck_pos (s : BowlingGame)
    (h : should_proceed_to_bonus_throw s = true) :
    afterBonusCheck s = set_bonus_throw s := by
  simp [afterBonusCheck, h]

lemma afterBonusCheck_neg (s : BowlingGame)
    (h : should_proceed_to_bonus_throw s = false) :
    afterBonusCheck s = s := by
  simp [afterBonusCheck, h]

lemma afterFrameCheck_pos (s : BowlingGame)
    (h : should_proceed_to_next_frame s = true) :
    afterFrameCheck s = set_new_frame s := by
  simp [afterFrameCheck, h]

lemma afterFrameCheck_neg (s : BowlingGame)
    (h : should_proceed_to_next_frame s = false) :
    afterFrameCheck s = s := by
  simp [afterFrameCheck, h]

end BowlingGame

/-- C2 (amended): each window examined by `score()` contributes the SUM of
the three rules' contributions — the strike rule fires exactly when the
window's first element is a `Strike`, the spare rule exactly when the middle
element is a `Spare`, the normal rule exactly when the last element is a
`Normal` — and the rules are not mutually exclusive: several can contribute
on one window (e.g. a strike window whose last element is a `Normal`). -/
theorem window_rules_sum (x y z : ThrowResult) :
    calculate_score_of_throw x y z
        = calculate_completed_strike_or_zero x y z
          + calculate_completed_spare_or_zero x y z
          + calculate_normal_hits_or_zero x y z
    ∧ (x = .Strike →
        calculate_completed_strike_or_zero x y z = 10 + y.to_score + z.to_score)
    ∧ (x ≠ .Strike → calculate_completed_strike_or_zero x y z = 0)
    ∧ (∀ n, y = .Spare n →
        calculate_completed_spare_or_zero x y z = n + z.to_score)
    ∧ ((∀ n, y ≠ .Spare n) → calculate_completed_spare_or_zero x y z = 0)
    ∧ (∀ n, z = .Normal n → calculate_normal_hits_or_zero x y z = n)
    ∧ ((∀ n, z ≠ .Normal n) → calculate_normal_hits_or_zero x y z = 0) := by
  refine ⟨rfl, ?_, ?_, ?_, ?_, ?_, ?_⟩
  · intro h
    subst h
    rfl
  · intro h
    cases x <;> simp_all [calculate_completed_strike_or_zero]
  · intro n h
    subst h
    rfl
  · intro h
    cases y <;> simp_all [calculate_completed_spare_or_zero]
  · intro n h
    subst h
    rfl
  · intro h
    cases z <;> simp_all [calculate_normal_hits_or_zero]

/-- Witness for `window_rules_sum` at the window `(Strike, Normal 5,
Normal 3)` of the completed game `10, 5, 3, 0…`: the strike rule and the
normal rule both contribute. -/
theorem window_rules_sum_witness :
    calculate_score_of_throw .Strike (.Normal 5) (.Normal 3)
        = calculate_completed_strike_or_zero .Strike (.Normal 5) (.Normal 3)
          + calculate_completed_spare_or_zero .Strike (.Normal 5) (.Normal 3)
          + calculate_normal_hits_or_zero .Strike (.Normal 5) (.Normal 3)
    ∧ calculate_completed_strike_or_zero .Strike (.Normal 5) (.Normal 3)
        = 10 + (ThrowResult.Normal 5).to_score + (ThrowResult.Normal 3).to_score
    ∧ calculate_normal_hits_or_zero .Strike (.Normal 5) (.Normal 3) = 3 :=
  ⟨(window_rules_sum .Strike (.Normal 5) (.Normal 3)).1,
    (window_rules_sum .Strike (.Normal 5) (.Normal 3)).2.1 rfl,
    (window_rules_sum .Strike (.Normal 5) (.Normal 3)).2.2.2.2.2.1 3 rfl⟩

/-- C3 (amended): within a successful roll, the bonus-phase entry
(`set_bonus_throw`) runs exactly when the throw leaves 0 pins in the frame
and the frame is 10 — with NO condition on not already being in the bonus
phase; entering sets pins-left back to 10 and the bonus flag, so a bonus
throw that clears all pins re-enters the bonus phase and resets
pins-left-in-frame to 10 again (which is what permits the second bonus
throw after a bonus-phase 10-pin roll). -/
theorem bonus_entry_exact_condition (s : BowlingGame) (p : Nat) :
    (should_proceed_to_bonus_throw (afterThrow s p) = true
        ↔ s.pins_left - p = 0 ∧ s.frame = 10)
    ∧ (set_bonus_throw (afterThrow s p)).pins_left = 10
    ∧ (set_bonus_throw (afterThrow s p)).is_bonus_throw = true
    ∧ (s.is_bonus_throw = true → s.frame = 10 → s.pins_left = p →
        s.throws_in_frame = 1 →
        (roll s p).1 = .ok () ∧ (roll s p).2.pins_left = 10
          ∧ (roll s p).2.is_bonus_throw = true ∧ (roll s p).2.frame = 10) := by
  refine ⟨?_, rfl, rfl, ?_⟩
  · unfold should_proceed_to_bonus_throw
    simp
  · intro h1 h2 h3 h4
    have hc : is_game_complete s = false := by
      simp [is_game_complete, h2]
    have hp : has_enough_pins s p = true := by
      simp [has_enough_pins, h3]
    have hb : should_proceed_to_bonus_throw (afterThrow s p) = true := by
      simp [should_proceed_to_bonus_throw, h2, h3]
    have hn : should_proceed_to_next_frame (set_bonus_throw (afterThrow s p)) = false := by
      simp [should_proceed_to_next_frame, set_bonus_throw, h1, h2, h4]
    rw [roll_ok s p hc hp, afterBonusCheck_pos _ hb, afterFrameCheck_neg _ hn]
    exact ⟨rfl, rfl, rfl, h2⟩

/-- Witness for `bonus_entry_exact_condition` at the reachable bonus-phase
state after eighteen zeros and a tenth-frame strike, with a 10-pin bonus
throw. -/
theorem bonus_entry_exact_condition_witness :
    (should_proceed_to_bonus_throw
        (afterThrow (applyRolls BowlingGame.new (List.replicate 18 0 ++ [10])) 10)
          = true
      ↔ (applyRolls BowlingGame.new (List.replicate 18 0 ++ [10])).pins_left - 10 = 0
        ∧ (applyRolls BowlingGame.new (List.replicate 18 0 ++ [10])).frame = 10)
    ∧ (roll (applyRolls BowlingGame.new (List.replicate 18 0 ++ [10])) 10).1 = .ok ()
    ∧ (roll (applyRolls BowlingGame.new (List.replicate 18 0 ++ [10])) 10).2.pins_left = 10
    ∧ (roll (applyRolls BowlingGame.new (List.replicate 18 0 ++ [10])) 10).2.is_bonus_throw = true := by
  have h := bonus_entry_exact_condition
    (applyRolls BowlingGame.new (List.replicate 18 0 ++ [10])) 10
  have h2 := h.2.2.2 rfl rfl rfl rfl
  exact ⟨h.1, h2.1, h2.2.1, h2.2.2.1⟩

namespace BowlingGame

@[simp] lemma set_bonus_throw_frame (s : BowlingGame) :
    (set_bonus_throw s).frame = s.frame := rfl

@[simp] lemma set_bonus_throw_bonus (s : BowlingGame) :
    (set_bonus_throw s).is_bonus_throw = true := rfl

@[simp] lemma set_bonus_throw_throws (s : BowlingGame) :
    (set_bonus_throw s).throws_in_frame = s.throws_in_frame := rfl

@[simp] lemma set_bonus_throw_pins (s : BowlingGame) :
    (set_bonus_throw s).pins_left = 10 := rfl

@[simp] lemma set_new_frame_frame (s : BowlingGame) :
    (set_new_frame s).frame = s.frame + 1 := rfl

@[simp] lemma set_new_frame_bonus (s : BowlingGame) :
    (set_new_frame s).is_bonus_throw = s.is_bonus_throw := rfl

@[simp] lemma set_new_frame_throws (s : BowlingGame) :
    (set_new_frame s).throws_in_frame = 0 := rfl

@[simp] lemma set_new_frame_pins (s : BowlingGame) :
    (set_new_frame s).pins_left = 10 := rfl

lemma should_bonus_iff (s : BowlingGame) :
    should_proceed_to_bonus_throw s = true ↔ s.pins_left = 0 ∧ s.frame = 10 := by
  simp [should_proceed_to_bonus_throw]

lemma should_next_iff_bonus (s : BowlingGame) (hf : s.frame = 10)
    (hb : s.is_bonus_throw = true) :
    (should_proceed_to_next_frame s = true ↔ 3 ≤ s.throws_in_frame) := by
  simp [should_proceed_to_next_frame, hf, hb]

lemma should_next_iff_nonbonus (s : BowlingGame) (hb : s.is_bonus_throw = false) :
    (should_proceed_to_next_frame s = true
      ↔ (s.pins_left = 0 ∨ 2 ≤ s.throws_in_frame)) := by
  simp [should_proceed_to_next_frame, hb]

/-- Invariant of every reachable scorer state: outside the bonus phase a
frame holds at most one completed throw (the second always advances the
frame), and in the bonus phase the scorer sits in frame 10 with at most two
completed bonus-phase throws, or has just advanced to frame 11 with the
throw counter reset. -/
def Inv (s : BowlingGame) : Prop :=
  (s.is_bonus_throw = false → s.throws_in_frame ≤ 1)
  ∧ (s.is_bonus_throw = true →
      (s.frame = 10 ∧ s.throws_in_frame ≤ 2) ∨ (s.frame = 11 ∧ s.throws_in_frame = 0))

lemma inv_new : Inv BowlingGame.new := by
  constructor <;> simp [BowlingGame.new]

lemma inv_roll (s : BowlingGame) (p : Nat) (h : Inv s) : Inv (roll s p).2 := by
  by_cases hc : is_game_complete s = true
  · simp [roll, hc]
    exact h
  · by_cases hp : has_enough_pins s p = true
    · have hc2 : is_game_complete s = false := by simpa using hc
      have hf : ¬ 10 < s.frame := by simpa [is_game_complete] using hc2
      rw [roll_ok s p hc2 hp]
      by_cases hb : should_proceed_to_bonus_throw (afterThrow s p) = true
      · rw [afterBonusCheck_pos _ hb]
        rw [should_bonus_iff] at hb
        simp only [afterThrow_pins, afterThrow_frame] at hb
        by_cases hn :
            should_proceed_to_next_frame (set_bonus_throw (afterThrow s p)) = true
        · rw [afterFrameCheck_pos _ hn]
          unfold Inv
          simp [hb.2]
        · rw [afterFrameCheck_neg _ (by simpa using hn)]
          rw [should_next_iff_bonus _ (by simp [hb.2]) (by simp)] at hn
          simp only [set_bonus_throw_throws, afterThrow_throws] at hn
          unfold Inv
          simp [hb.2]
          omega
      · rw [afterBonusCheck_neg _ (by simpa using hb)]
        by_cases hsb : s.is_bonus_throw = true
        · have hf10 : s.frame = 10 ∧ s.throws_in_frame ≤ 2 := by
            rcases h.2 hsb with d | d
            · exact d
            · exact absurd (by omega : 10 < s.frame) hf
          by_cases hn : should_proceed_to_next_frame (afterThrow s p) = true
          · rw [afterFrameCheck_pos _ hn]
            unfold Inv
            simp [hsb, hf10.1]
          · rw [afterFrameCheck_neg _ (by simpa using hn)]
            rw [should_next_iff_bonus _ (by simp [hf10.1]) (by simp [hsb])] at hn
            simp only [afterThrow_throws] at hn
            unfold Inv
            simp [hsb, hf10.1]
            omega
        · have hsb2 : s.is_bonus_throw = false := by simpa using hsb
          have ht1 : s.throws_in_frame ≤ 1 := h.1 hsb2
          by_cases hn : should_proceed_to_next_frame (afterThrow s p) = true
          · rw [afterFrameCheck_pos _ hn]
            unfold Inv
            simp [hsb2]
          · rw [afterFrameCheck_neg _ (by simpa using hn)]
            rw [should_next_iff_nonbonus _ (by simp [hsb2])] at hn
            simp only [afterThrow_pins, afterThrow_throws] at hn
            unfold Inv
            simp [hsb2]
            omega
    · simp [roll, hc, hp]
      exact h

lemma inv_applyRolls (l : List Nat) : ∀ s, Inv s → Inv (applyRolls s l) := by
  induction l with
  | nil =>
    intro s h
    exact h
  | cons p r ih =>
    intro s h
    exact ih _ (inv_roll s p h)

lemma roll_gameComplete_iff (s : BowlingGame) (p : Nat) :
    (roll s p).1 = .error .GameComplete ↔ 10 < s.frame := by
  unfold roll is_game_complete
  split_ifs with h1 h2 <;> simp_all

end BowlingGame

namespace BowlingGame

lemma frame_advance_char (s : BowlingGame) (p : Nat) (hInv : Inv s)
    (h1 : (roll s p).1 = .ok ()) (h2 : 10 < (roll s p).2.frame) :
    (s.is_bonus_throw = true ∧ s.throws_in_frame = 2)
      ∨ (s.is_bonus_throw = false ∧ s.frame = 10 ∧ s.throws_in_frame = 1
          ∧ p < s.pins_left) := by
  by_cases hc : is_game_complete s = true
  · simp [roll, hc] at h1
  · by_cases hp : has_enough_pins s p = true
    · have hc2 : is_game_complete s = false := by simpa using hc
      have hf : ¬ 10 < s.frame := by simpa [is_game_complete] using hc2
      rw [roll_ok s p hc2 hp] at h2
      by_cases hb : should_proceed_to_bonus_throw (afterThrow s p) = true
      · rw [afterBonusCheck_pos _ hb] at h2
        rw [should_bonus_iff] at hb
        simp only [afterThrow_pins, afterThrow_frame] at hb
        by_cases hn :
            should_proceed_to_next_frame (set_bonus_throw (afterThrow s p)) = true
        · rw [should_next_iff_bonus _ (by simp [hb.2]) (by simp)] at hn
          simp only [set_bonus_throw_throws, afterThrow_throws] at hn
          by_cases hsb : s.is_bonus_throw = true
          · left
            refine ⟨hsb, ?_⟩
            rcases hInv.2 hsb with d | d
            · omega
            · omega
          · have ht := hInv.1 (by simpa using hsb)
            omega
        · rw [afterFrameCheck_neg _ (by simpa using hn)] at h2
          simp only [set_bonus_throw_frame, afterThrow_frame] at h2
          omega
      · rw [afterBonusCheck_neg _ (by simpa using hb)] at h2
        have hb2 : ¬((afterThrow s p).pins_left = 0 ∧ (afterThrow s p).frame = 10) := by
          rw [← should_bonus_iff]
          simpa using hb
        simp only [afterThrow_pins, afterThrow_frame] at hb2
        by_cases hn : should_proceed_to_next_frame (afterThrow s p) = true
        · rw [afterFrameCheck_pos _ hn] at h2
          simp only [set_new_frame_frame, afterThrow_frame] at h2
          have hf10 : s.frame = 10 := by omega
          by_cases hsb : s.is_bonus_throw = true
          · rw [should_next_iff_bonus _ (by simp [hf10]) (by simp [hsb])] at hn
            simp only [afterThrow_throws] at hn
            left
            refine ⟨hsb, ?_⟩
            rcases hInv.2 hsb with d | d
            · omega
            · omega
          · have hsb2 : s.is_bonus_throw = false := by simpa using hsb
            rw [should_next_iff_nonbonus _ (by simp [hsb2])] at hn
            simp only [afterThrow_pins, afterThrow_throws] at hn
            have ht := hInv.1 hsb2
            have hpins : ¬ (s.pins_left - p = 0) := fun hq => hb2 ⟨hq, hf10⟩
            have hple : p ≤ s.pins_left := by simpa [has_enough_pins] using hp
            right
            refine ⟨hsb2, hf10, ?_, ?_⟩
            · rcases hn with hn | hn
              · exact absurd hn hpins
              · omega
            · omega
        · rw [afterFrameCheck_neg _ (by simpa using hn)] at h2
          simp only [afterThrow_frame] at h2
          omega
    · simp [roll, hc, hp] at h1

end BowlingGame

/-- C5: for every reachable scorer state, `roll` returns
`Err(GameComplete)` exactly when the frame index exceeds 10; and a
successful roll makes the frame index exceed 10 only when it consumes the
last owed bonus throw (bonus phase with two bonus-phase throws already
taken) or is the second throw of a tenth frame that leaves pins standing
(neither strike nor spare), so no bonus throws are ever pending once the
frame index exceeds 10. -/
theorem game_complete_characterization (l : List Nat) (p : Nat) :
    ((roll (applyRolls BowlingGame.new l) p).1 = .error .GameComplete
        ↔ 10 < (applyRolls BowlingGame.new l).frame)
    ∧ ((roll (applyRolls BowlingGame.new l) p).1 = .ok () →
        10 < (roll (applyRolls BowlingGame.new l) p).2.frame →
        ((applyRolls BowlingGame.new l).is_bonus_throw = true
            ∧ (applyRolls BowlingGame.new l).throws_in_frame = 2)
          ∨ ((applyRolls BowlingGame.new l).is_bonus_throw = false
              ∧ (applyRolls BowlingGame.new l).frame = 10
              ∧ (applyRolls BowlingGame.new l).throws_in_frame = 1
              ∧ p < (applyRolls BowlingGame.new l).pins_left)) := by
  constructor
  · exact roll_gameComplete_iff (applyRolls BowlingGame.new l) p
  · exact frame_advance_char (applyRolls BowlingGame.new l) p
      (inv_applyRolls l BowlingGame.new inv_new)

/-- Witness for `game_complete_characterization`: after nineteen zero
rolls the scorer sits in frame 10 with one throw taken; the twentieth zero
roll succeeds and completes the game via the open-tenth-frame case. -/
theorem game_complete_characterization_witness :
    ((roll (applyRolls BowlingGame.new (List.replicate 19 0)) 0).1
        = .error .GameComplete
      ↔ 10 < (applyRolls BowlingGame.new (List.replicate 19 0)).frame)
    ∧ (((applyRolls BowlingGame.new (List.replicate 19 0)).is_bonus_throw = true
          ∧ (applyRolls BowlingGame.new (List.replicate 19 0)).throws_in_frame = 2)
        ∨ ((applyRolls BowlingGame.new (List.replicate 19 0)).is_bonus_throw = false
            ∧ (applyRolls BowlingGame.new (List.replicate 19 0)).frame = 10
            ∧ (applyRolls BowlingGame.new (List.replicate 19 0)).throws_in_frame = 1
            ∧ 0 < (applyRolls BowlingGame.new (List.replicate 19 0)).pins_left)) := by
  have h := game_complete_characterization (List.replicate 19 0) 0
  exact ⟨h.1, h.2 rfl (by decide)⟩

namespace BowlingGame

lemma calc_zero_cons (l : List ThrowResult) :
    calculate_score (.Normal 0 :: .Normal 0 :: .Normal 0 :: l)
      = calculate_score (.Normal 0 :: .Normal 0 :: l) := by
  rw [calculate_score_cons3]
  simp [calculate_score_of_throw, calculate_completed_strike_or_zero,
    calculate_completed_spare_or_zero, calculate_normal_hits_or_zero]

lemma calc_replicate_zeros (n : Nat) (l : List ThrowResult) :
    calculate_score (List.replicate (n + 2) (.Normal 0) ++ l)
      = calculate_score (.Normal 0 :: .Normal 0 :: l) := by
  induction n with
  | zero => rfl
  | succ n ih =>
    have h : List.replicate (n + 1 + 2) (ThrowResult.Normal 0) ++ l
        = .Normal 0 :: .Normal 0 :: .Normal 0 :: (List.replicate n (.Normal 0) ++ l) := by
      simp [List.replicate_succ]
    have h2 : List.replicate (n + 2) (ThrowResult.Normal 0) ++ l
        = .Normal 0 :: .Normal 0 :: (List.replicate n (.Normal 0) ++ l) := by
      simp [List.replicate_succ]
    rw [h, calc_zero_cons, ← h2, ih]

lemma calc_strike_bonus_tail (a b : Nat) :
    calculate_score [ThrowResult.Normal 0, .Normal 0, .Strike, .Bonus a, .Bonus b]
      = 10 + a + b := by
  simp [calculate_score, calculate_score_of_throw, calculate_completed_strike_or_zero,
    calculate_completed_spare_or_zero, calculate_normal_hits_or_zero,
    ThrowResult.to_score]

/-- A first bonus throw: frame 10, bonus phase, one throw taken, full rack. -/
lemma bonus_first_roll (st : BowlingGame) (a : Nat)
    (hfr : st.frame = 10) (hbn : st.is_bonus_throw = true)
    (hth : st.throws_in_frame = 1) (hpl : st.pins_left = 10) (hpa : a ≤ 10) :
    roll st a = (.ok (),
      { frame := 10, is_bonus_throw := true, throws_in_frame := 2,
        pins_left := if a = 10 then 10 else 10 - a,
        result := st.result ++ [.Bonus a] }) := by
  obtain ⟨f, bn, t, pl, res⟩ := st
  simp only at hfr hbn hth hpl
  subst hfr
  subst hbn
  subst hth
  subst hpl
  have hc : is_game_complete ⟨10, true, 1, 10, res⟩ = false := rfl
  have hp : has_enough_pins ⟨10, true, 1, 10, res⟩ a = true := by
    simp [has_enough_pins, hpa]
  rw [roll_ok _ a hc hp]
  by_cases h10 : a = 10
  · subst h10
    rw [if_pos rfl]
    rfl
  · rw [if_neg h10]
    rw [afterBonusCheck_neg _ (by simp [should_proceed_to_bonus_throw]; omega)]
    rw [afterFrameCheck_neg (afterThrow ⟨10, true, 1, 10, res⟩ a) rfl]
    rfl

/-- A second bonus throw: frame 10, bonus phase, two throws taken; the roll
completes the game. -/
lemma bonus_second_roll (st : BowlingGame) (b : Nat)
    (hfr : st.frame = 10) (hbn : st.is_bonus_throw = true)
    (hth : st.throws_in_frame = 2) (hpb : b ≤ st.pins_left) :
    roll st b = (.ok (),
      { frame := 11, is_bonus_throw := true, throws_in_frame := 0,
        pins_left := 10, result := st.result ++ [.Bonus b] }) := by
  obtain ⟨f, bn, t, pl, res⟩ := st
  simp only at hfr hbn hth hpb
  subst hfr
  subst hbn
  subst hth
  have hc : is_game_complete ⟨10, true, 2, pl, res⟩ = false := rfl
  have hp : has_enough_pins ⟨10, true, 2, pl, res⟩ b = true := by
    simp [has_enough_pins, hpb]
  rw [roll_ok _ b hc hp]
  by_cases hz :
      should_proceed_to_bonus_throw (afterThrow ⟨10, true, 2, pl, res⟩ b) = true
  · rw [afterBonusCheck_pos _ hz,
      afterFrameCheck_pos (set_bonus_throw (afterThrow ⟨10, true, 2, pl, res⟩ b)) rfl]
    rfl
  · rw [afterBonusCheck_neg _ (by simpa using hz),
      afterFrameCheck_pos (afterThrow ⟨10, true, 2, pl, res⟩ b) rfl]
    rfl

end BowlingGame

/-- C4: after a tenth-frame strike (reached here by eighteen zeros and a
10-pin roll), exactly two further rolls are accepted: both are recorded as
`Bonus` throws (a 10-pin roll among them included — it is `Bonus a`, not
`Strike`), the game is not yet complete after the first, is complete after
the second, the final score is exactly `10 + a + b` (each bonus face value
counted once, no strike scoring triggered by a 10-pin bonus throw), and any
further roll fails with `GameComplete`. -/
theorem tenth_frame_strike_two_bonus_rolls
    (S : BowlingGame)
    (hS : S = applyRolls BowlingGame.new (List.replicate 18 0 ++ [10]))
    (a b : Nat) (ha : a ≤ 10) (hb : b ≤ if a = 10 then 10 else 10 - a) :
    (roll S a).1 = .ok ()
    ∧ (roll S a).2.result = S.result ++ [.Bonus a]
    ∧ score (roll S a).2 = none
    ∧ (roll (roll S a).2 b).1 = .ok ()
    ∧ (roll (roll S a).2 b).2.result = S.result ++ [.Bonus a, .Bonus b]
    ∧ 10 < (roll (roll S a).2 b).2.frame
    ∧ score (roll (roll S a).2 b).2 = some (10 + a + b)
    ∧ ∀ q, (roll (roll (roll S a).2 b).2 q).1 = .error .GameComplete := by
  have hSval : S
      = { frame := 10, is_bonus_throw := true, throws_in_frame := 1,
          pins_left := 10,
          result := List.replicate 20 (ThrowResult.Normal 0) ++ [ThrowResult.Strike] } := by
    rw [hS]
    rfl
  have h1 := bonus_first_roll S a (by rw [hSval]) (by rw [hSval]) (by rw [hSval])
    (by rw [hSval]) ha
  have h2 := bonus_second_roll (roll S a).2 b (by rw [h1]) (by rw [h1]) (by rw [h1])
    (by rw [h1]; exact hb)
  refine ⟨by rw [h1], by rw [h1], by rw [h1]; rfl, by rw [h2], ?_, ?_, ?_, ?_⟩
  · rw [h2, h1]
    simp
  · rw [h2]
    norm_num
  · rw [h2, h1]
    show some _ = _
    rw [hSval]
    simp only [List.append_assoc, List.cons_append, List.nil_append]
    have h20 : (20 : Nat) = 18 + 2 := rfl
    rw [h20, calc_replicate_zeros 18 [ThrowResult.Strike, .Bonus a, .Bonus b],
      calc_strike_bonus_tail]
  · intro q
    rw [h2]
    rfl

/-- Witness for `tenth_frame_strike_two_bonus_rolls`: bonus throws of 10
and 6 after a tenth-frame strike (the source's own test scenario). -/
theorem tenth_frame_strike_two_bonus_rolls_witness :
    (roll (applyRolls BowlingGame.new (List.replicate 18 0 ++ [10])) 10).1 = .ok ()
    ∧ (roll (applyRolls BowlingGame.new (List.replicate 18 0 ++ [10])) 10).2.result
        = (applyRolls BowlingGame.new (List.replicate 18 0 ++ [10])).result
          ++ [.Bonus 10]
    ∧ score (roll (applyRolls BowlingGame.new (List.replicate 18 0 ++ [10])) 10).2
        = none
    ∧ (roll (roll (applyRolls BowlingGame.new (List.replicate 18 0 ++ [10])) 10).2 6).1
        = .ok ()
    ∧ (roll (roll (applyRolls BowlingGame.new (List.replicate 18 0 ++ [10])) 10).2 6).2.result
        = (applyRolls BowlingGame.new (List.replicate 18 0 ++ [10])).result
          ++ [.Bonus 10, .Bonus 6]
    ∧ 10 < (roll (roll (applyRolls BowlingGame.new (List.replicate 18 0 ++ [10])) 10).2 6).2.frame
    ∧ score (roll (roll (applyRolls BowlingGame.new (List.replicate 18 0 ++ [10])) 10).2 6).2
        = some (10 + 10 + 6)
    ∧ ∀ q,
        (roll (roll (roll (applyRolls BowlingGame.new (List.replicate 18 0 ++ [10])) 10).2 6).2 q).1
          = .error .GameComplete :=
  tenth_frame_strike_two_bonus_rolls
    (applyRolls BowlingGame.new (List.replicate 18 0 ++ [10])) rfl 10 6
    (by decide) (by decide)

/-- Mirror of the Rust `enum CalculatorInput` of the RPN calculator; the
`i32` payload is modelled as `Int` with explicit two's-complement
wrapping in the arithmetic. -/
inductive CalculatorInput where
  | Add
  | Subtract
  | Multiply
  | Divide
  | Value (n : Int)
deriving DecidableEq, Repr

/-- Two's-complement wrapping of an `i32` arithmetic result. -/
def wrap32 (n : Int) : Int :=
  (n + 2 ^ 31) % 2 ^ 32 - 2 ^ 31

/-- Mirror of `calculate`.  `+`, `-`, `*` are `i32` arithmetic (wrapping);
`/` truncates toward zero and panics in Rust when the divisor is 0 (or on
the overflowing `i32::MIN / -1`); the `Value` arm is
`panic!("How did you get here?")`.  The panicking outcomes are modelled as
`none`. -/
def calculate (a b : Int) (operator : CalculatorInput) : Option Int :=
  match operator with
  | .Add => some (wrap32 (a + b))
  | .Subtract => some (wrap32 (a - b))
  | .Multiply => some (wrap32 (a * b))
  | .Divide => if b = 0 ∨ (a = -(2 ^ 31) ∧ b = -1) then none else some (a.tdiv b)
  | .Value _ => none

/-- Mirror of `pop_value_from_stack`; the Rust `Vec` top is the list head
here. -/
def pop_value_from_stack : List CalculatorInput → Option (Int × List CalculatorInput)
  | .Value v :: rest => some (v, rest)
  | _ => none

/-- Mirror of `pop_two_elements_from_stack`: pops `a` then `b` and returns
`(b, a)` with the remaining stack. -/
def pop_two_elements_from_stack (stack : List CalculatorInput) :
    Option (Int × Int × List CalculatorInput) :=
  match pop_value_from_stack stack with
  | none => none
  | some (a, s1) =>
    match pop_value_from_stack s1 with
    | none => none
    | some (b, s2) => some (b, a, s2)

/-- Mirror of `handle_input`.  `.error ()` marks a Rust panic raised inside
`calculate`; `.ok none` is the `?`-propagated `None` of a malformed stream;
`.ok (some st)` is the updated stack. -/
def handle_input (stack : List CalculatorInput) (input : CalculatorInput) :
    Except Unit (Option (List CalculatorInput)) :=
  match input with
  | .Value n => .ok (some (.Value n :: stack))
  | op =>
    match pop_two_elements_from_stack stack with
    | none => .ok none
    | some (first, second, rest) =>
      match calculate first second op with
      | none => .error ()
      | some v => .ok (some (.Value v :: rest))

/-- Mirror of `get_result_or_none_from_stack`. -/
def get_result_or_none_from_stack (stack : List CalculatorInput) : Option Int :=
  match stack with
  | [.Value r] => some r
  | _ => none

/-- The token loop of `evaluate` with an explicit stack. -/
def evalGo (stack : List CalculatorInput) :
    List CalculatorInput → Except Unit (Option Int)
  | [] => .ok (get_result_or_none_from_stack stack)
  | i :: rest =>
    match handle_input stack i with
    | .error () => .error ()
    | .ok none => .ok none
    | .ok (some st) => evalGo st rest

/-- Mirror of `evaluate`: `.ok (some v)` is a result, `.ok none` the
uniform rejection of a malformed stream, `.error ()` a panic. -/
def evaluate (inputs : List CalculatorInput) : Except Unit (Option Int) :=
  evalGo [] inputs

example : evaluate [] = .ok none := rfl

example : evaluate [.Value 10] = .ok (some 10) := rfl

example : evaluate [.Value 2, .Value 2, .Add] = .ok (some 4) := rfl

example : evaluate [.Value 7, .Value 11, .Subtract] = .ok (some (-4)) := rfl

example : evaluate [.Value 6, .Value 9, .Multiply] = .ok (some 54) := rfl

example : evaluate [.Value 57, .Value 19, .Divide] = .ok (some 3) := rfl

example :
    evaluate [.Value 4, .Value 8, .Add, .Value 7, .Value 5, .Subtract, .Divide]
      = .ok (some 6) := rfl

example : evaluate [.Value 2, .Add] = .ok none := rfl

example : evaluate [.Value 2, .Value 2] = .ok none := rfl

example : evaluate [.Add, .Value 2, .Value 2, .Multiply] = .ok none := rfl

/-- Modelled from the spec: one scan step of RPN well-formedness.  The
state counts operands on the stack; a `Value` pushes one, an operator
needs two and nets minus one, and `none` marks a stream already found
malformed ("too few operands"). -/
def spec_step : Option Nat → CalculatorInput → Option Nat
  | none, _ => none
  | some k, .Value _ => some (k + 1)
  | some k, _ => if 2 ≤ k then some (k - 1) else none

/-- Modelled from the spec: a well-formed RPN token stream — the scan never
underflows and exactly one operand remains at the end ("too few operands,
leftover operands, empty input" are the malformed cases). -/
def spec_wellFormedRPN (ts : List CalculatorInput) : Bool :=
  ts.foldl spec_step (some 0) == some 1

lemma spec_foldl_none (l : List CalculatorInput) :
    l.foldl spec_step none = none := by
  induction l with
  | nil => rfl
  | cons i r ih =>
    have h : spec_step none i = none := by cases i <;> rfl
    rw [List.foldl_cons, h, ih]

lemma spec_step_op (k : Nat) (i : CalculatorInput)
    (h : i = .Add ∨ i = .Subtract ∨ i = .Multiply) :
    spec_step (some (k + 2)) i = some (k + 1) := by
  rcases h with rfl | rfl | rfl <;> simp [spec_step]

lemma evalGo_cons_ok (stack st2 : List CalculatorInput) (i : CalculatorInput)
    (rest : List CalculatorInput)
    (h : handle_input stack i = .ok (some st2)) :
    evalGo stack (i :: rest) = evalGo st2 rest := by
  simp [evalGo, h]

lemma evalGo_op_underflow (i : CalculatorInput) (rest stack : List CalculatorInput)
    (hh : handle_input stack i = .ok none)
    (hspec : spec_step (some stack.length) i = none) :
    ((i :: rest).foldl spec_step (some stack.length) = some 1 →
        ∃ u, evalGo stack (i :: rest) = .ok (some u))
    ∧ ((i :: rest).foldl spec_step (some stack.length) ≠ some 1 →
        evalGo stack (i :: rest) = .ok none) := by
  constructor
  · intro h
    rw [List.foldl_cons, hspec, spec_foldl_none] at h
    exact absurd h (by simp)
  · intro h
    simp [evalGo, hh]

lemma evalGo_op_core (i : CalculatorInput) (rest : List CalculatorInput)
    (nx ny v : Int) (s2 : List CalculatorInput)
    (hh : handle_input (.Value nx :: .Value ny :: s2) i = .ok (some (.Value v :: s2)))
    (hspec : spec_step (some (s2.length + 2)) i = some (s2.length + 1))
    (hs2 : ∀ w ∈ s2, ∃ m, w = CalculatorInput.Value m)
    (hdiv2 : CalculatorInput.Divide ∉ rest)
    (ihr : ∀ stack, (∀ w ∈ stack, ∃ m, w = CalculatorInput.Value m) →
        CalculatorInput.Divide ∉ rest →
        ((rest.foldl spec_step (some stack.length) = some 1 →
            ∃ u, evalGo stack rest = .ok (some u))
          ∧ (rest.foldl spec_step (some stack.length) ≠ some 1 →
              evalGo stack rest = .ok none))) :
    ((i :: rest).foldl spec_step (some (s2.length + 2)) = some 1 →
        ∃ u, evalGo (.Value nx :: .Value ny :: s2) (i :: rest) = .ok (some u))
    ∧ ((i :: rest).foldl spec_step (some (s2.length + 2)) ≠ some 1 →
        evalGo (.Value nx :: .Value ny :: s2) (i :: rest) = .ok none) := by
  have hst : ∀ w ∈ (CalculatorInput.Value v :: s2), ∃ m, w = CalculatorInput.Value m := by
    intro w hw
    rcases List.mem_cons.mp hw with h | h
    · exact ⟨v, h⟩
    · exact hs2 w h
  have hkey := ihr (.Value v :: s2) hst hdiv2
  rw [evalGo_cons_ok _ _ _ _ hh, List.foldl_cons, hspec]
  simpa using hkey

lemma evalGo_no_divide (ts : List CalculatorInput) :
    ∀ stack, (∀ x ∈ stack, ∃ n, x = CalculatorInput.Value n) →
      CalculatorInput.Divide ∉ ts →
      ((ts.foldl spec_step (some stack.length) = some 1 →
          ∃ v, evalGo stack ts = .ok (some v))
        ∧ (ts.foldl spec_step (some stack.length) ≠ some 1 →
            evalGo stack ts = .ok none)) := by
  induction ts with
  | nil =>
    intro stack hstack _
    constructor
    · intro h
      have hlen : stack.length = 1 := by simpa using h
      obtain ⟨x, rfl⟩ := List.length_eq_one.mp hlen
      obtain ⟨n, rfl⟩ := hstack x (by simp)
      exact ⟨n, rfl⟩
    · intro h
      have hlen : stack.length ≠ 1 := by simpa using h
      cases stack with
      | nil => rfl
      | cons x rest2 =>
        obtain ⟨n, rfl⟩ := hstack x (by simp)
        cases rest2 with
        | nil => simp at hlen
        | cons y r2 => rfl
  | cons i rest ih =>
    intro stack hstack hdiv
    have hdiv2 : CalculatorInput.Divide ∉ rest :=
      fun hm => hdiv (List.mem_cons_of_mem _ hm)
    cases i with
    | Value n =>
      have hst : ∀ w ∈ (CalculatorInput.Value n :: stack), ∃ m, w = CalculatorInput.Value m := by
        intro w hw
        rcases List.mem_cons.mp hw with h | h
        · exact ⟨n, h⟩
        · exact hstack w h
      exact ih (.Value n :: stack) hst hdiv2
    | Divide => exact absurd (List.mem_cons_self _ _) hdiv
    | Add =>
      cases stack with
      | nil => exact evalGo_op_underflow _ rest [] rfl rfl
      | cons x s1 =>
        obtain ⟨nx, rfl⟩ := hstack x (by simp)
        cases s1 with
        | nil => exact evalGo_op_underflow _ rest [CalculatorInput.Value nx] rfl rfl
        | cons y s2 =>
          obtain ⟨ny, rfl⟩ := hstack y (by simp)
          have hs2 : ∀ w ∈ s2, ∃ m, w = CalculatorInput.Value m :=
            fun w hw => hstack w (by simp [hw])
          exact evalGo_op_core _ rest nx ny _ s2 rfl
            (spec_step_op s2.length _ (by simp)) hs2 hdiv2 ih
    | Subtract =>
      cases stack with
      | nil => exact evalGo_op_underflow _ rest [] rfl rfl
      | cons x s1 =>
        obtain ⟨nx, rfl⟩ := hstack x (by simp)
        cases s1 with
        | nil => exact evalGo_op_underflow _ rest [CalculatorInput.Value nx] rfl rfl
        | cons y s2 =>
          obtain ⟨ny, rfl⟩ := hstack y (by simp)
          have hs2 : ∀ w ∈ s2, ∃ m, w = CalculatorInput.Value m :=
            fun w hw => hstack w (by simp [hw])
          exact evalGo_op_core _ rest nx ny _ s2 rfl
            (spec_step_op s2.length _ (by simp)) hs2 hdiv2 ih
    | Multiply =>
      cases stack with
      | nil => exact evalGo_op_underflow _ rest [] rfl rfl
      | cons x s1 =>
        obtain ⟨nx, rfl⟩ := hstack x (by simp)
        cases s1 with
        | nil => exact evalGo_op_underflow _ rest [CalculatorInput.Value nx] rfl rfl
        | cons y s2 =>
          obtain ⟨ny, rfl⟩ := hstack y (by simp)
          have hs2 : ∀ w ∈ s2, ∃ m, w = CalculatorInput.Value m :=
            fun w hw => hstack w (by simp [hw])
          exact evalGo_op_core _ rest nx ny _ s2 rfl
            (spec_step_op s2.length _ (by simp)) hs2 hdiv2 ih

/-- C10 counterexample: the token sequence `1 0 /` reaches a division with
a zero divisor, which panics in the Rust source (`a / b` with `b == 0`), so
`evaluate` has an outcome other than `Some(result)` or the uniform
malformed-stream `None` — refuting "total and fails closed ... including
for every sequence containing a Divide token". -/
theorem evaluate_divide_by_zero_panics_cex :
    evaluate [CalculatorInput.Value 1, .Value 0, .Divide] = .error ()
    ∧ ∀ r : Option Int,
        evaluate [CalculatorInput.Value 1, .Value 0, .Divide] ≠ .ok r := by
  refine ⟨rfl, fun r h => ?_⟩
  have h2 : (Except.error () : Except Unit (Option Int)) = .ok r := h
  exact Except.noConfusion h2

/-- C10 (amended): on every token sequence containing no `Divide` token,
`evaluate` never panics and fails closed: it returns `Some(result)` exactly
on the well-formed RPN streams and the uniform `None` on every malformed
one (too few operands, leftover operands, empty input).  A reached division
by zero (or `i32::MIN / -1`) panics instead. -/
theorem evaluate_total_and_fails_closed_without_divide
    (ts : List CalculatorInput) (hdiv : CalculatorInput.Divide ∉ ts) :
    evaluate ts ≠ .error ()
    ∧ (spec_wellFormedRPN ts = true → ∃ v, evaluate ts = .ok (some v))
    ∧ (spec_wellFormedRPN ts = false → evaluate ts = .ok none) := by
  have h := evalGo_no_divide ts [] (by simp) hdiv
  have h1 : ts.foldl spec_step (some 0) = some 1 → ∃ v, evaluate ts = .ok (some v) := h.1
  have h2 : ts.foldl spec_step (some 0) ≠ some 1 → evaluate ts = .ok none := h.2
  refine ⟨?_, ?_, ?_⟩
  · by_cases hwf : ts.foldl spec_step (some 0) = some 1
    · obtain ⟨v, hv⟩ := h1 hwf
      simp [hv]
    · simp [h2 hwf]
  · intro hw
    exact h1 (by simpa [spec_wellFormedRPN] using hw)
  · intro hw
    exact h2 (by simpa [spec_wellFormedRPN] using hw)

/-- Witness for `evaluate_total_and_fails_closed_without_divide` at the
divide-free stream `2 2 +`, which is well-formed and evaluates to 4. -/
theorem evaluate_total_without_divide_witness :
    evaluate [CalculatorInput.Value 2, .Value 2, .Add] ≠ .error ()
    ∧ spec_wellFormedRPN [CalculatorInput.Value 2, .Value 2, .Add] = true
    ∧ ∃ v, evaluate [CalculatorInput.Value 2, .Value 2, .Add] = .ok (some v) := by
  have h := evaluate_total_and_fails_closed_without_divide
    [CalculatorInput.Value 2, .Value 2, .Add] (by decide)
  exact ⟨h.1, rfl, h.2.1 rfl⟩
